import Mathlib

/-!
Verification of the resource-ingest-guide-schema utilities: the knowledge-graph
to RIG importer (`mkg_to_rig.py`), the RIG scaffolder (`create_rig.py`) and the
GitHub publishing wrapper (`rig_github.py`), shallowly embedded over an
association-list model of YAML documents and of the filesystem.
-/

namespace RigSchema

/-- YAML/JSON values as loaded by `yaml.safe_load` / `json.load`: strings,
sequences, and mappings (association lists in insertion order, as Python
dicts preserve insertion order). -/
inductive Yaml where
  | str : String → Yaml
  | seq : List Yaml → Yaml
  | map : List (String × Yaml) → Yaml

/-- Lookup of a key in a Python-dict-like association list (`d[k]` / `k in d`). -/
def getKey {α : Type} : List (String × α) → String → Option α
  | [], _ => none
  | (k', v') :: rest, k => if k' = k then some v' else getKey rest k

/-- Assignment `d[k] = v` on a Python-dict-like association list: replaces the
value in place when the key is present (keeping its position), appends the new
binding at the end otherwise. -/
def setKey {α : Type} : List (String × α) → String → α → List (String × α)
  | [], k, v => [(k, v)]
  | (k', v') :: rest, k, v =>
      if k' = k then (k, v) :: rest else (k', v') :: setKey rest k v

/-- Removal of every binding of a key (used to model `os.rename` removing the
source path from the filesystem). -/
def removeKey {α : Type} : List (String × α) → String → List (String × α)
  | [], _ => []
  | (k', v') :: rest, k =>
      if k' = k then removeKey rest k else (k', v') :: removeKey rest k

theorem getKey_setKey_self {α : Type} (m : List (String × α)) (k : String) (v : α) :
    getKey (setKey m k v) k = some v := by
  induction m with
  | nil => simp [setKey, getKey]
  | cons hd tl ih =>
      obtain ⟨k', v'⟩ := hd
      by_cases h : k' = k
      · simp [setKey, getKey, h]
      · simp [setKey, getKey, h, ih]

theorem getKey_setKey_ne {α : Type} (m : List (String × α)) (k k' : String) (v : α)
    (h : k' ≠ k) : getKey (setKey m k v) k' = getKey m k' := by
  have h' : k ≠ k' := Ne.symm h
  induction m with
  | nil => simp [setKey, getKey, h']
  | cons hd tl ih =>
      obtain ⟨k₀, v₀⟩ := hd
      by_cases h₀ : k₀ = k
      · subst h₀
        simp [setKey, getKey, h']
      · simp [setKey, getKey, h₀, ih]

theorem setKey_of_getKey_eq {α : Type} (m : List (String × α)) (k : String) (v : α)
    (h : getKey m k = some v) : setKey m k v = m := by
  induction m with
  | nil => simp [getKey] at h
  | cons hd tl ih =>
      obtain ⟨k', v'⟩ := hd
      by_cases h₀ : k' = k
      · subst h₀
        simp [getKey] at h
        simp [setKey, h]
      · simp [getKey, h₀] at h
        simp [setKey, h₀, ih h]

theorem getKey_removeKey_self {α : Type} (m : List (String × α)) (k : String) :
    getKey (removeKey m k) k = none := by
  induction m with
  | nil => simp [removeKey, getKey]
  | cons hd tl ih =>
      obtain ⟨k', v'⟩ := hd
      by_cases h : k' = k
      · simp [removeKey, h, ih]
      · simp [removeKey, getKey, h, ih]

theorem getKey_removeKey_ne {α : Type} (m : List (String × α)) (k k' : String)
    (h : k' ≠ k) : getKey (removeKey m k) k' = getKey m k' := by
  have h' : k ≠ k' := Ne.symm h
  induction m with
  | nil => simp [removeKey]
  | cons hd tl ih =>
      obtain ⟨k₀, v₀⟩ := hd
      by_cases h₀ : k₀ = k
      · subst h₀
        simp [removeKey, getKey, h', ih]
      · simp [removeKey, getKey, h₀, ih]

/-- One entry of a node's `attributes` list in the meta knowledge graph JSON;
the importer only reads its `attribute_type_id` field. -/
structure MKGAttribute where
  attribute_type_id : String

/-- The `details` mapping of one node category: `id_prefixes` and `attributes`. -/
structure NodeDetails where
  id_prefixes : List String
  attributes : List MKGAttribute

/-- One edge descriptor of the meta knowledge graph JSON. -/
structure MKGEdge where
  subject : String
  predicate : String
  object : String

/-- A parsed meta knowledge graph: the `nodes` mapping (in dict iteration
order) and the `edges` list. -/
structure MKG where
  nodes : List (String × NodeDetails)
  edges : List MKGEdge

/-- One entry of `target_info.node_type_info` as built by `mkg_to_rig.main`. -/
structure RigNode where
  node_category : String
  source_identifier_types : List String
  node_properties : List String

/-- One entry of `target_info.edge_type_info` as built by `mkg_to_rig.main`. -/
structure RigEdge where
  subject : List String
  predicates : List String
  object : List String
  knowledge_level : String
  agent_type : String
  edge_properties : List String

/-- Body of the node loop of `mkg_to_rig.main`: builds one `rig_node` dict
from a `(category, details)` pair. -/
def mkRigNode (category : String) (details : NodeDetails) : RigNode :=
  { node_category := category
    source_identifier_types := details.id_prefixes
    node_properties := details.attributes.map (fun a => a.attribute_type_id) }

/-- Body of the edge loop of `mkg_to_rig.main`: builds one `rig_edge` dict.
`details` is the node-loop variable still in scope, so `edge_properties` comes
from a node's attributes, not from the edge. -/
def mkRigEdge (knowledge_level agent_type : String) (details : NodeDetails)
    (edge : MKGEdge) : RigEdge :=
  { subject := [edge.subject]
    predicates := [edge.predicate]
    object := [edge.object]
    knowledge_level := knowledge_level
    agent_type := agent_type
    edge_properties := details.attributes.map (fun a => a.attribute_type_id) }

/-- The node loop `for category, details in mkg_data['nodes'].items()`:
threads the accumulated `node_type_info` list together with the current value
of the loop variable `details` (`none` before the first iteration, mirroring
that the Python name is unbound until the loop body first runs). -/
def nodeLoop : List (String × NodeDetails) → List RigNode × Option NodeDetails →
    List RigNode × Option NodeDetails
  | [], st => st
  | (category, details) :: rest, (acc, _) =>
      nodeLoop rest (acc ++ [mkRigNode category details], some details)

/-- The edge loop `for edge in mkg_data['edges']`: every iteration reads the
name `details`; when no node was ever iterated that name is unbound and the
loop body raises `NameError` (modelled as `none`). -/
def edgeLoop (knowledge_level agent_type : String) (details : Option NodeDetails) :
    List MKGEdge → List RigEdge → Option (List RigEdge)
  | [], acc => some acc
  | edge :: rest, acc =>
      match details with
      | none => none
      | some d =>
          edgeLoop knowledge_level agent_type details rest
            (acc ++ [mkRigEdge knowledge_level agent_type d edge])

/-- The `node_type_info` list produced by one importer run. -/
def node_type_info (mkg : MKG) : List RigNode :=
  (nodeLoop mkg.nodes ([], none)).1

/-- The `edge_type_info` list produced by one importer run (`none` when the
edge loop raises). -/
def edge_type_info (knowledge_level agent_type : String) (mkg : MKG) :
    Option (List RigEdge) :=
  edgeLoop knowledge_level agent_type (nodeLoop mkg.nodes ([], none)).2 mkg.edges []

theorem nodeLoop_fst (l : List (String × NodeDetails))
    (acc : List RigNode) (d : Option NodeDetails) :
    (nodeLoop l (acc, d)).1 = acc ++ l.map (fun p => mkRigNode p.1 p.2) := by
  induction l generalizing acc d with
  | nil => simp [nodeLoop]
  | cons hd tl ih =>
      obtain ⟨c, dd⟩ := hd
      simp [nodeLoop, ih]

theorem nodeLoop_snd (l : List (String × NodeDetails))
    (acc : List RigNode) (d : Option NodeDetails) :
    (nodeLoop l (acc, d)).2 =
      (match l.getLast? with
       | some p => some p.2
       | none => d) := by
  induction l generalizing acc d with
  | nil => simp [nodeLoop]
  | cons hd tl ih =>
      obtain ⟨c, dd⟩ := hd
      rw [nodeLoop, ih]
      cases htl : tl.getLast? with
      | none =>
          have : tl = [] := by
            cases tl with
            | nil => rfl
            | cons x xs => simp [List.getLast?_cons_cons] at htl
          subst this
          simp
      | some p =>
          cases tl with
          | nil => simp at htl
          | cons x xs =>
              simp only [List.getLast?_cons_cons]
              rw [show (x :: xs).getLast? = some p from htl]

theorem edgeLoop_some (knowledge_level agent_type : String) (d : NodeDetails)
    (es : List MKGEdge) (acc : List RigEdge) :
    edgeLoop knowledge_level agent_type (some d) es acc =
      some (acc ++ es.map (mkRigEdge knowledge_level agent_type d)) := by
  induction es generalizing acc with
  | nil => simp [edgeLoop]
  | cons e rest ih => simp [edgeLoop, ih]

theorem edgeLoop_none (knowledge_level agent_type : String)
    (es : List MKGEdge) (acc : List RigEdge) (h : es ≠ []) :
    edgeLoop knowledge_level agent_type none es acc = none := by
  cases es with
  | nil => exact absurd rfl h
  | cons e rest => simp [edgeLoop]

/-- YAML rendering of one `rig_node` dict, preserving insertion order. -/
def yamlOfNode (n : RigNode) : Yaml :=
  Yaml.map
    [("node_category", Yaml.str n.node_category),
     ("source_identifier_types", Yaml.seq (n.source_identifier_types.map Yaml.str)),
     ("node_properties", Yaml.seq (n.node_properties.map Yaml.str))]

/-- YAML rendering of one `rig_edge` dict, preserving insertion order. -/
def yamlOfEdge (e : RigEdge) : Yaml :=
  Yaml.map
    [("subject", Yaml.seq (e.subject.map Yaml.str)),
     ("predicates", Yaml.seq (e.predicates.map Yaml.str)),
     ("object", Yaml.seq (e.object.map Yaml.str)),
     ("knowledge_level", Yaml.str e.knowledge_level),
     ("agent_type", Yaml.str e.agent_type),
     ("edge_properties", Yaml.seq (e.edge_properties.map Yaml.str))]

/-- The in-memory merge of `mkg_to_rig.main`:
`rig_data.setdefault('target_info', {})`, then unconditional assignment of
`target_info['node_type_info']` and `target_info['edge_type_info']` to the
freshly extracted lists. Returns `none` when the Python code raises
(`target_info` bound to a non-mapping, or `NameError` in the edge loop). -/
def mergeRig (knowledge_level agent_type : String) (mkg : MKG)
    (rig : List (String × Yaml)) : Option (List (String × Yaml)) :=
  let ti0 : Option (List (String × Yaml)) :=
    match getKey rig "target_info" with
    | none => some []
    | some (Yaml.map m) => some m
    | some _ => none
  match ti0 with
  | none => none
  | some ti =>
      match edge_type_info knowledge_level agent_type mkg with
      | none => none
      | some es =>
          let ti1 := setKey ti "node_type_info"
            (Yaml.seq ((node_type_info mkg).map yamlOfNode))
          let ti2 := setKey ti1 "edge_type_info" (Yaml.seq (es.map yamlOfEdge))
          some (setKey rig "target_info" (Yaml.map ti2))

/-- Content of a file as the importer sees it after parsing: a YAML mapping
(the RIG), a parsed meta knowledge graph JSON, or anything else (text that
parses to a non-mapping, non-MKG document). -/
inductive FileData where
  | rigFile : List (String × Yaml) → FileData
  | mkgFile : MKG → FileData
  | raw : String → FileData

/-- Model of `os.rename(src, dst)`: the destination receives the source's content
(silently replacing any previous file there) and the source disappears. -/
def FSrename (fs : List (String × FileData)) (src dst : String) :
    List (String × FileData) :=
  match getKey fs src with
  | none => fs
  | some d => setKey (removeKey fs src) dst d

/-- Filesystem operations performed by a run, in order. -/
inductive FsOp where
  | renameOp : String → String → FsOp
  | writeOp : String → FsOp

/-- One run of `mkg_to_rig.main` after path resolution: existence checks on
the RIG and MKG paths (exit 1, nothing touched, when either is missing), load
and merge (exit 1, nothing touched, on any exception), then rename the RIG to
`<path>.original` and write the merged document back to the RIG path.
Returns the exit code, the ordered filesystem operations, and the final
filesystem. -/
def runImporter (knowledge_level agent_type rigPath mkgPath : String)
    (fs : List (String × FileData)) :
    Nat × List FsOp × List (String × FileData) :=
  match getKey fs rigPath with
  | none => (1, [], fs)
  | some rigContent =>
      match getKey fs mkgPath with
      | none => (1, [], fs)
      | some mkgContent =>
          match rigContent with
          | FileData.rigFile rig =>
              match mkgContent with
              | FileData.mkgFile mkg =>
                  match mergeRig knowledge_level agent_type mkg rig with
                  | none => (1, [], fs)
                  | some merged =>
                      let fs1 := FSrename fs rigPath (rigPath ++ ".original")
                      let fs2 := setKey fs1 rigPath (FileData.rigFile merged)
                      (0, [FsOp.renameOp rigPath (rigPath ++ ".original"),
                           FsOp.writeOp rigPath], fs2)
              | _ => (1, [], fs)
          | _ => (1, [], fs)

/-- The `create_rig` function of `create_rig.py`: fills the loaded template
with the user-supplied values. Mirrors the Python statement order: set
`name`, set `source_info.infores_id`, insert `target_info` when absent, set
`target_info.infores_id`, and set `source_info.additional_notes` to the
creation-date string only when the key is absent. Returns `none` when the
Python code raises (`ReferenceIngestGuide`, `source_info` missing or not
mappings, or `target_info` bound to a non-mapping). -/
def create_rig (infores_id rig_name today : String)
    (template : List (String × Yaml)) : Option (List (String × Yaml)) :=
  match getKey template "ReferenceIngestGuide" with
  | some (Yaml.map rig0) =>
      let rig1 := setKey rig0 "name" (Yaml.str rig_name)
      match getKey rig1 "source_info" with
      | some (Yaml.map si0) =>
          let si1 := setKey si0 "infores_id" (Yaml.str infores_id)
          let rig2 :=
            if (getKey rig1 "target_info").isSome then rig1
            else setKey rig1 "target_info" (Yaml.map [])
          match getKey rig2 "target_info" with
          | some (Yaml.map ti0) =>
              let ti1 := setKey ti0 "infores_id" (Yaml.str infores_id)
              let si2 :=
                if (getKey si1 "additional_notes").isSome then si1
                else setKey si1 "additional_notes"
                  (Yaml.str ("RIG created on " ++ today))
              let rig3 :=
                setKey (setKey rig2 "source_info" (Yaml.map si2))
                  "target_info" (Yaml.map ti1)
              some (setKey template "ReferenceIngestGuide" (Yaml.map rig3))
          | some _ => none
          | none => none
      | _ => none
  | _ => none

/-- Model of `os.path.dirname` for forward-slash paths. -/
def dirname (p : String) : String :=
  String.intercalate "/" ((p.splitOn "/").dropLast)

/-- Observable side effects of one scaffolder run, in order. -/
inductive ScafOp where
  | mkdirsOp : String → ScafOp
  | readTemplateOp : String → ScafOp
  | writeOutputOp : String → ScafOp

/-- One run of `create_rig.main`: validate the `infores:` prefix (exit 1,
nothing touched, on failure), derive the default output name, `os.makedirs`
on the output's directory, check the template exists (exit 1), ask for
confirmation when the output already exists (exit 0 when declined), then load
the template and write the filled document (exit 1 on any exception). -/
def scaffolderRun (infores rig_name : String) (outputOpt : Option String)
    (templatePath today : String) (confirmOverwrite : Bool)
    (fs : List (String × FileData)) :
    Nat × List ScafOp × List (String × FileData) :=
  if infores.startsWith "infores:" = false then (1, [], fs)
  else
    let output :=
      match outputOpt with
      | some o => o
      | none =>
          "src/docs/rigs/" ++
            ((infores.replace "infores:" "").replace ":" "_") ++ "_rig.yaml"
    let ops := [ScafOp.mkdirsOp (dirname output)]
    match getKey fs templatePath with
    | none => (1, ops, fs)
    | some tmplContent =>
        if (getKey fs output).isSome && confirmOverwrite = false then (0, ops, fs)
        else
          let ops := ops ++ [ScafOp.readTemplateOp templatePath]
          match tmplContent with
          | FileData.rigFile tmpl =>
              match create_rig infores rig_name today tmpl with
              | some doc =>
                  (0, ops ++ [ScafOp.writeOutputOp output],
                   setKey fs output (FileData.rigFile doc))
              | none => (1, ops, fs)
          | _ => (1, ops, fs)

/-- Errors the GitHub client can raise. -/
inductive RemoteErr where
  | notFound : RemoteErr
  | authFailure : RemoteErr
  | staleSha : RemoteErr
deriving DecidableEq

/-- Observable outcome of `RigGitHub.publish_document`: which repository call
ended the run, or the exception propagated to the caller. -/
inductive PublishOutcome where
  | updated : String → PublishOutcome
  | created : PublishOutcome
  | raised : RemoteErr → PublishOutcome
deriving DecidableEq

/-- Model of `RigGitHub.publish_document`, abstracted over the remote client: the
existence check `repo.get_contents(path)` either yields a sha or raises; the
`except Exception: pass` block maps EVERY failure to `sha = None`; then
`sha is not None` selects `update_file`, otherwise `create_file`, whose own
failures are not caught. -/
def publish_document (getContents : Except RemoteErr String)
    (updateFile : String → Except RemoteErr Unit)
    (createFile : Except RemoteErr Unit) : PublishOutcome :=
  let sha : Option String :=
    match getContents with
    | Except.ok r => some r
    | Except.error _ => none
  match sha with
  | some s =>
      match updateFile s with
      | Except.ok _ => PublishOutcome.updated s
      | Except.error e => PublishOutcome.raised e
  | none =>
      match createFile with
      | Except.ok _ => PublishOutcome.created
      | Except.error e => PublishOutcome.raised e

/-! Claim theorems. -/

/-- C2: node extraction emits exactly one node record per `(category, details)`
pair of the source `nodes` mapping, in iteration order, with `node_category`
the category string, `source_identifier_types` a copy of `id_prefixes` with no
deduplication or reordering, and `node_properties` the `attribute_type_id`
values of `details.attributes` in source order, duplicates preserved. -/
theorem node_extraction_complete (mkg : MKG) :
    (node_type_info mkg).length = mkg.nodes.length ∧
    node_type_info mkg = mkg.nodes.map (fun p =>
      { node_category := p.1
        source_identifier_types := p.2.id_prefixes
        node_properties := p.2.attributes.map (fun a => a.attribute_type_id) }) := by
  have hmap : node_type_info mkg = mkg.nodes.map (fun p => mkRigNode p.1 p.2) := by
    unfold node_type_info
    rw [nodeLoop_fst]
    simp
  constructor
  · rw [hmap, List.length_map]
  · rw [hmap]
    rfl

/-- C1: for a knowledge graph with a non-empty `nodes` mapping, edge
extraction emits one edge record per edge descriptor in source order, each
field wrapped as a singleton sequence, `knowledge_level` and `agent_type` the
caller-supplied parameters on every record, and `edge_properties` the
`attribute_type_id` values of the attributes of the LAST node iterated during
node extraction. -/
theorem edge_extraction_uses_last_node (knowledge_level agent_type : String)
    (mkg : MKG) (h : mkg.nodes ≠ []) :
    ∃ last, mkg.nodes.getLast? = some last ∧
      edge_type_info knowledge_level agent_type mkg =
        some (mkg.edges.map (fun e =>
          { subject := [e.subject]
            predicates := [e.predicate]
            object := [e.object]
            knowledge_level := knowledge_level
            agent_type := agent_type
            edge_properties :=
              last.2.attributes.map (fun a => a.attribute_type_id) })) := by
  have hsome : mkg.nodes.getLast?.isSome := List.getLast?_isSome.mpr h
  obtain ⟨p, hp⟩ := Option.isSome_iff_exists.mp hsome
  refine ⟨p, hp, ?_⟩
  unfold edge_type_info
  rw [nodeLoop_snd, hp, edgeLoop_some]
  rfl

/-- Sample meta knowledge graph taken from the spec's worked example. -/
def sampleMKG : MKG :=
  { nodes := [("biolink:Disease",
      { id_prefixes := ["MONDO"],
        attributes := [{ attribute_type_id := "biolink:inheritance" }] })],
    edges := [{ subject := "biolink:Disease",
                predicate := "biolink:has_phenotype",
                object := "biolink:PhenotypicFeature" }] }

/-- Witness for C1 at the spec's worked example. -/
theorem edge_extraction_uses_last_node_witness :
    ∃ last, sampleMKG.nodes.getLast? = some last ∧
      edge_type_info "treats_as_asserted" "manual_agent" sampleMKG =
        some (sampleMKG.edges.map (fun e =>
          { subject := [e.subject]
            predicates := [e.predicate]
            object := [e.object]
            knowledge_level := "treats_as_asserted"
            agent_type := "manual_agent"
            edge_properties :=
              last.2.attributes.map (fun a => a.attribute_type_id) })) :=
  edge_extraction_uses_last_node "treats_as_asserted" "manual_agent" sampleMKG
    (by simp [sampleMKG])

theorem mergeRig_some_shape (knowledge_level agent_type : String) (mkg : MKG)
    (rig out : List (String × Yaml))
    (h : mergeRig knowledge_level agent_type mkg rig = some out) :
    ∃ ti es, edge_type_info knowledge_level agent_type mkg = some es ∧
      (match getKey rig "target_info" with
       | none => ti = ([] : List (String × Yaml))
       | some (Yaml.map m) => ti = m
       | some _ => False) ∧
      out = setKey rig "target_info" (Yaml.map
        (setKey (setKey ti "node_type_info"
            (Yaml.seq ((node_type_info mkg).map yamlOfNode)))
          "edge_type_info" (Yaml.seq (es.map yamlOfEdge)))) := by
  cases hes : edge_type_info knowledge_level agent_type mkg with
  | none =>
      cases hti : getKey rig "target_info" with
      | none =>
          simp only [mergeRig, hti, hes] at h
          exact Option.noConfusion h
      | some v =>
          cases v with
          | str s =>
              simp only [mergeRig, hti] at h
              exact Option.noConfusion h
          | seq l =>
              simp only [mergeRig, hti] at h
              exact Option.noConfusion h
          | map m =>
              simp only [mergeRig, hti, hes] at h
              exact Option.noConfusion h
  | some es =>
      cases hti : getKey rig "target_info" with
      | none =>
          simp only [mergeRig, hti, hes, Option.some.injEq] at h
          exact ⟨[], es, rfl, rfl, h.symm⟩
      | some v =>
          cases v with
          | str s =>
              simp only [mergeRig, hti] at h
              exact Option.noConfusion h
          | seq l =>
              simp only [mergeRig, hti] at h
              exact Option.noConfusion h
          | map m =>
              simp only [mergeRig, hti, hes, Option.some.injEq] at h
              exact ⟨m, es, rfl, rfl, h.symm⟩

/-- C3: the merger creates `target_info` as an empty mapping only when it is
absent, leaves every other key under `target_info` and every key of the RIG
document outside `target_info` unchanged, and unconditionally replaces
`target_info.node_type_info` and `target_info.edge_type_info` with the freshly
computed sequences, whatever those keys held before. -/
theorem mergeRig_target_info_frame (knowledge_level agent_type : String)
    (mkg : MKG) (rig out : List (String × Yaml))
    (h : mergeRig knowledge_level agent_type mkg rig = some out) :
    (∀ k, k ≠ "target_info" → getKey out k = getKey rig k) ∧
    ∃ ti', getKey out "target_info" = some (Yaml.map ti') ∧
      getKey ti' "node_type_info" =
        some (Yaml.seq ((node_type_info mkg).map yamlOfNode)) ∧
      (∃ es, edge_type_info knowledge_level agent_type mkg = some es ∧
        getKey ti' "edge_type_info" = some (Yaml.seq (es.map yamlOfEdge))) ∧
      ∀ k, k ≠ "node_type_info" → k ≠ "edge_type_info" →
        getKey ti' k =
          (match getKey rig "target_info" with
           | some (Yaml.map ti) => getKey ti k
           | _ => none) := by
  obtain ⟨ti, es, hes, hti, hout⟩ :=
    mergeRig_some_shape knowledge_level agent_type mkg rig out h
  subst hout
  refine ⟨fun k hk => getKey_setKey_ne _ _ _ _ hk, _, getKey_setKey_self _ _ _,
    ?_, ⟨es, hes, getKey_setKey_self _ _ _⟩, ?_⟩
  · rw [getKey_setKey_ne _ _ _ _ (by decide), getKey_setKey_self]
  · intro k hk1 hk2
    rw [getKey_setKey_ne _ _ _ _ hk2, getKey_setKey_ne _ _ _ _ hk1]
    cases hget : getKey rig "target_info" with
    | none =>
        rw [hget] at hti
        subst hti
        rfl
    | some v =>
        cases v with
        | str s => rw [hget] at hti; exact absurd hti (by simp)
        | seq l => rw [hget] at hti; exact absurd hti (by simp)
        | map m =>
            rw [hget] at hti
            subst hti
            rfl

/-- C4: merging a second time, on the document produced by the first merge,
with the same knowledge graph and the same `knowledge_level` and `agent_type`,
reproduces the first run's output exactly — in particular its `target_info`
section — because the merge replaces rather than accumulates. -/
theorem mergeRig_idempotent (knowledge_level agent_type : String) (mkg : MKG)
    (rig out : List (String × Yaml))
    (h : mergeRig knowledge_level agent_type mkg rig = some out) :
    mergeRig knowledge_level agent_type mkg out = some out := by
  obtain ⟨ti, es, hes, _, hout⟩ :=
    mergeRig_some_shape knowledge_level agent_type mkg rig out h
  set vn : Yaml := Yaml.seq ((node_type_info mkg).map yamlOfNode) with hvn
  set ve : Yaml := Yaml.seq (es.map yamlOfEdge) with hve
  set ti2 : List (String × Yaml) :=
    setKey (setKey ti "node_type_info" vn) "edge_type_info" ve with hti2
  have hget : getKey out "target_info" = some (Yaml.map ti2) := by
    rw [hout]
    exact getKey_setKey_self _ _ _
  have h1 : setKey ti2 "node_type_info" vn = ti2 := by
    apply setKey_of_getKey_eq
    rw [hti2, getKey_setKey_ne _ _ _ _ (by decide), getKey_setKey_self]
  have h2 : setKey ti2 "edge_type_info" ve = ti2 := by
    apply setKey_of_getKey_eq
    rw [hti2, getKey_setKey_self]
  unfold mergeRig
  rw [hget, hes]
  simp only [h1, h2]
  rw [setKey_of_getKey_eq _ _ _ hget]

theorem ne_append_original (p : String) : p ≠ p ++ ".original" := by
  intro h
  have hlen := congrArg String.length h
  rw [String.length_append] at hlen
  have h9 : (".original" : String).length = 9 := rfl
  omega

/-- C5: a run that exits 0 first renamed the RIG file to `<path>.original`
and then wrote the merged document to the RIG path, so afterwards the backup
holds exactly the pre-run RIG content and the RIG path holds the merged
document. -/
theorem runImporter_backup (knowledge_level agent_type rigPath mkgPath : String)
    (fs fs' : List (String × FileData)) (tr : List FsOp)
    (h : runImporter knowledge_level agent_type rigPath mkgPath fs = (0, tr, fs')) :
    tr = [FsOp.renameOp rigPath (rigPath ++ ".original"), FsOp.writeOp rigPath] ∧
    getKey fs' (rigPath ++ ".original") = getKey fs rigPath ∧
    ∃ rig mkg merged,
      getKey fs rigPath = some (FileData.rigFile rig) ∧
      getKey fs mkgPath = some (FileData.mkgFile mkg) ∧
      mergeRig knowledge_level agent_type mkg rig = some merged ∧
      getKey fs' rigPath = some (FileData.rigFile merged) := by
  cases hr : getKey fs rigPath with
  | none =>
      simp only [runImporter, hr, Prod.mk.injEq] at h
      exact absurd h.1 (by decide)
  | some rigContent =>
      cases hm : getKey fs mkgPath with
      | none =>
          simp only [runImporter, hr, hm, Prod.mk.injEq] at h
          exact absurd h.1 (by decide)
      | some mkgContent =>
          cases rigContent with
          | mkgFile g =>
              simp only [runImporter, hr, hm, Prod.mk.injEq] at h
              exact absurd h.1 (by decide)
          | raw s =>
              simp only [runImporter, hr, hm, Prod.mk.injEq] at h
              exact absurd h.1 (by decide)
          | rigFile rig =>
              cases mkgContent with
              | rigFile r2 =>
                  simp only [runImporter, hr, hm, Prod.mk.injEq] at h
                  exact absurd h.1 (by decide)
              | raw s =>
                  simp only [runImporter, hr, hm, Prod.mk.injEq] at h
                  exact absurd h.1 (by decide)
              | mkgFile mkg =>
                  cases hmerge : mergeRig knowledge_level agent_type mkg rig with
                  | none =>
                      simp only [runImporter, hr, hm, hmerge, Prod.mk.injEq] at h
                      exact absurd h.1 (by decide)
                  | some merged =>
                      simp only [runImporter, hr, hm, hmerge, Prod.mk.injEq] at h
                      obtain ⟨-, htr, hfs⟩ := h
                      subst htr
                      subst hfs
                      refine ⟨rfl, ?_, rig, mkg, merged, rfl, rfl, hmerge, ?_⟩
                      · rw [getKey_setKey_ne _ _ _ _ (Ne.symm (ne_append_original rigPath))]
                        unfold FSrename
                        rw [hr, getKey_setKey_self]
                      · exact getKey_setKey_self _ _ _

/-- C6: when the RIG file or the knowledge-graph JSON file is missing, the
importer exits with code 1 without performing any filesystem operation, so
the RIG file and any pre-existing `.original` backup are untouched. -/
theorem runImporter_missing_input (knowledge_level agent_type rigPath mkgPath : String)
    (fs : List (String × FileData))
    (h : getKey fs rigPath = none ∨ getKey fs mkgPath = none) :
    runImporter knowledge_level agent_type rigPath mkgPath fs = (1, [], fs) := by
  cases hr : getKey fs rigPath with
  | none => simp only [runImporter, hr]
  | some rigContent =>
      cases h with
      | inl h1 => rw [h1] at hr; exact Option.noConfusion hr
      | inr h2 => simp only [runImporter, hr, h2]

/-- C10: on a knowledge graph with an empty `nodes` mapping and non-empty
`edges`, the edge loop reads the never-bound node-loop variable `details` and
raises, so the merge fails and the importer exits with code 1 before any
rename or write. -/
theorem runImporter_empty_nodes (knowledge_level agent_type rigPath mkgPath : String)
    (fs : List (String × FileData)) (rig : List (String × Yaml)) (mkg : MKG)
    (h1 : getKey fs rigPath = some (FileData.rigFile rig))
    (h2 : getKey fs mkgPath = some (FileData.mkgFile mkg))
    (h3 : mkg.nodes = []) (h4 : mkg.edges ≠ []) :
    edge_type_info knowledge_level agent_type mkg = none ∧
    runImporter knowledge_level agent_type rigPath mkgPath fs = (1, [], fs) := by
  have he : edge_type_info knowledge_level agent_type mkg = none := by
    unfold edge_type_info
    rw [h3]
    exact edgeLoop_none _ _ _ _ h4
  have hmerge : mergeRig knowledge_level agent_type mkg rig = none := by
    cases hti : getKey rig "target_info" with
    | none => simp only [mergeRig, hti, he]
    | some v =>
        cases v with
        | str s => simp only [mergeRig, hti]
        | seq l => simp only [mergeRig, hti]
        | map m => simp only [mergeRig, hti, he]
  exact ⟨he, by simp only [runImporter, h1, h2, hmerge]⟩

/-- Template whose `ReferenceIngestGuide` mapping has a `source_info` mapping
but binds `target_info` to a plain string. -/
def badTemplate : List (String × Yaml) :=
  [("ReferenceIngestGuide", Yaml.map
    [("source_info", Yaml.map []),
     ("target_info", Yaml.str "oops")])]

/-- C7 counterexample: a template whose document contains a
`ReferenceIngestGuide` mapping with a `source_info` mapping on which the
scaffolder produces no document at all (the `target_info` key holds a string,
so `template['ReferenceIngestGuide']['target_info']['infores_id'] = ...`
raises and the run exits with code 1), contradicting the claim's conclusion
for this template. -/
theorem create_rig_cex :
    getKey badTemplate "ReferenceIngestGuide" =
      some (Yaml.map [("source_info", Yaml.map []),
                      ("target_info", Yaml.str "oops")]) ∧
    getKey [("source_info", Yaml.map []), ("target_info", Yaml.str "oops")]
      "source_info" = some (Yaml.map []) ∧
    create_rig "infores:ctd" "CTD Chemical-Disease Associations" "2026-10-12"
      badTemplate = none :=
  ⟨rfl, rfl, rfl⟩

theorem create_rig_eq (infores_id rig_name today : String)
    (template rigMap si ti0 : List (String × Yaml))
    (h1 : getKey template "ReferenceIngestGuide" = some (Yaml.map rigMap))
    (h2 : getKey rigMap "source_info" = some (Yaml.map si))
    (hts : getKey rigMap "target_info" = some (Yaml.map ti0) ∨
           getKey rigMap "target_info" = none ∧ ti0 = []) :
    create_rig infores_id rig_name today template =
      some (setKey template "ReferenceIngestGuide" (Yaml.map
        (setKey (setKey
            (if (getKey rigMap "target_info").isSome
             then setKey rigMap "name" (Yaml.str rig_name)
             else setKey (setKey rigMap "name" (Yaml.str rig_name))
                    "target_info" (Yaml.map []))
            "source_info" (Yaml.map
              (if (getKey si "additional_notes").isSome
               then setKey si "infores_id" (Yaml.str infores_id)
               else setKey (setKey si "infores_id" (Yaml.str infores_id))
                      "additional_notes"
                      (Yaml.str ("RIG created on " ++ today)))))
          "target_info" (Yaml.map (setKey ti0 "infores_id"
            (Yaml.str infores_id)))))) := by
  have hname_si :
      getKey (setKey rigMap "name" (Yaml.str rig_name)) "source_info" =
        some (Yaml.map si) := by
    rw [getKey_setKey_ne _ _ _ _ (by decide)]
    exact h2
  have hnotes :
      getKey (setKey si "infores_id" (Yaml.str infores_id)) "additional_notes" =
        getKey si "additional_notes" :=
    getKey_setKey_ne _ _ _ _ (by decide)
  cases hts with
  | inl hts =>
      have hname_ti :
          getKey (setKey rigMap "name" (Yaml.str rig_name)) "target_info" =
            some (Yaml.map ti0) := by
        rw [getKey_setKey_ne _ _ _ _ (by decide)]
        exact hts
      cases han : getKey si "additional_notes" with
      | some note =>
          simp only [create_rig, h1, hname_si, hname_ti, hts, han,
            Option.isSome_some, if_true, hnotes]
      | none =>
          simp only [create_rig, h1, hname_si, hname_ti, hts, han,
            Option.isSome_some, Option.isSome_none, if_true,
            Bool.false_eq_true, if_false, hnotes]
  | inr hts =>
      obtain ⟨hts, rfl⟩ := hts
      have hname_ti :
          getKey (setKey rigMap "name" (Yaml.str rig_name)) "target_info" =
            none := by
        rw [getKey_setKey_ne _ _ _ _ (by decide)]
        exact hts
      cases han : getKey si "additional_notes" with
      | some note =>
          simp only [create_rig, h1, hname_si, hname_ti, hts, han,
            Option.isSome_some, Option.isSome_none, if_true,
            Bool.false_eq_true, if_false, hnotes, getKey_setKey_self]
      | none =>
          simp only [create_rig, h1, hname_si, hname_ti, hts, han,
            Option.isSome_none, Bool.false_eq_true, if_false, hnotes,
            getKey_setKey_self]

/-- C7 (amended): for every template whose document contains a
`ReferenceIngestGuide` mapping with a `source_info` mapping, and whose
`target_info` key, when present, holds a mapping, the scaffolder produces a
document in which `name` equals the given rig name, `source_info.infores_id`
and `target_info.infores_id` both equal the given infores identifier, and
`source_info.additional_notes` is set to the creation-date string exactly when
it was absent from the template, an existing value being left unchanged. -/
theorem create_rig_fills_template (infores_id rig_name today : String)
    (template rigMap si : List (String × Yaml))
    (h1 : getKey template "ReferenceIngestGuide" = some (Yaml.map rigMap))
    (h2 : getKey rigMap "source_info" = some (Yaml.map si))
    (h3 : ∀ v, getKey rigMap "target_info" = some v → ∃ m, v = Yaml.map m) :
    ∃ doc rigMap' si' ti',
      create_rig infores_id rig_name today template = some doc ∧
      getKey doc "ReferenceIngestGuide" = some (Yaml.map rigMap') ∧
      getKey rigMap' "name" = some (Yaml.str rig_name) ∧
      getKey rigMap' "source_info" = some (Yaml.map si') ∧
      getKey rigMap' "target_info" = some (Yaml.map ti') ∧
      getKey si' "infores_id" = some (Yaml.str infores_id) ∧
      getKey ti' "infores_id" = some (Yaml.str infores_id) ∧
      getKey si' "additional_notes" =
        (match getKey si "additional_notes" with
         | some v => some v
         | none => some (Yaml.str ("RIG created on " ++ today))) := by
  have main : ∀ ti0 : List (String × Yaml),
      getKey rigMap "target_info" = some (Yaml.map ti0) ∨
        getKey rigMap "target_info" = none ∧ ti0 = [] →
      ∃ doc rigMap' si' ti',
        create_rig infores_id rig_name today template = some doc ∧
        getKey doc "ReferenceIngestGuide" = some (Yaml.map rigMap') ∧
        getKey rigMap' "name" = some (Yaml.str rig_name) ∧
        getKey rigMap' "source_info" = some (Yaml.map si') ∧
        getKey rigMap' "target_info" = some (Yaml.map ti') ∧
        getKey si' "infores_id" = some (Yaml.str infores_id) ∧
        getKey ti' "infores_id" = some (Yaml.str infores_id) ∧
        getKey si' "additional_notes" =
          (match getKey si "additional_notes" with
           | some v => some v
           | none => some (Yaml.str ("RIG created on " ++ today))) := by
    intro ti0 hts
    refine ⟨_, _,
      (if (getKey si "additional_notes").isSome
       then setKey si "infores_id" (Yaml.str infores_id)
       else setKey (setKey si "infores_id" (Yaml.str infores_id))
              "additional_notes" (Yaml.str ("RIG created on " ++ today))),
      setKey ti0 "infores_id" (Yaml.str infores_id),
      create_rig_eq infores_id rig_name today template rigMap si ti0 h1 h2 hts,
      getKey_setKey_self _ _ _, ?_, ?_, ?_, ?_, ?_, ?_⟩
    · rw [getKey_setKey_ne _ _ _ _ (by decide),
        getKey_setKey_ne _ _ _ _ (by decide)]
      by_cases hc : (getKey rigMap "target_info").isSome = true
      · rw [if_pos hc, getKey_setKey_self]
      · rw [if_neg hc, getKey_setKey_ne _ _ _ _ (by decide), getKey_setKey_self]
    · rw [getKey_setKey_ne _ _ _ _ (by decide), getKey_setKey_self]
    · exact getKey_setKey_self _ _ _
    · by_cases hc : (getKey si "additional_notes").isSome = true
      · rw [if_pos hc, getKey_setKey_self]
      · rw [if_neg hc, getKey_setKey_ne _ _ _ _ (by decide), getKey_setKey_self]
    · exact getKey_setKey_self _ _ _
    · cases han : getKey si "additional_notes" with
      | some note =>
          rw [if_pos (show (some note).isSome = true from rfl),
            getKey_setKey_ne _ _ _ _ (by decide), han]
      | none =>
          rw [if_neg (show ¬(none : Option Yaml).isSome = true from
                Bool.false_ne_true),
            getKey_setKey_self]
  cases hget : getKey rigMap "target_info" with
  | some v =>
      obtain ⟨ti0, rfl⟩ := h3 v hget
      exact main ti0 (Or.inl hget)
  | none =>
      exact main [] (Or.inr ⟨hget, rfl⟩)

/-- C8: an infores argument that does not start with the literal prefix
`infores:` makes the scaffolder CLI exit with code 1 before any filesystem
effect: no directory creation, no template load, no output write. -/
theorem scaffolder_rejects_bad_infores (infores rig_name : String)
    (outputOpt : Option String) (templatePath today : String)
    (confirmOverwrite : Bool) (fs : List (String × FileData))
    (h : infores.startsWith "infores:" = false) :
    scaffolderRun infores rig_name outputOpt templatePath today confirmOverwrite
      fs = (1, [], fs) := by
  unfold scaffolderRun
  rw [if_pos h]

/-- Witness for C8 with the spec's rejected argument `--infores ctd`. -/
theorem scaffolder_rejects_bad_infores_witness :
    scaffolderRun "ctd" "CTD Chemical-Disease Associations" none
      "src/docs/files/rig_template.yaml" "2026-10-12" true [] = (1, [], []) :=
  scaffolder_rejects_bad_infores "ctd" "CTD Chemical-Disease Associations" none
    "src/docs/files/rig_template.yaml" "2026-10-12" true [] (by rfl)

/-- C9 counterexample: an authentication failure raised by the existence
check `repo.get_contents` is swallowed by the bare `except Exception: pass`
and routed to the create-file call, instead of being propagated to the
caller as the claim states. -/
theorem publish_document_cex :
    publish_document (Except.error RemoteErr.authFailure)
      (fun _ => Except.ok ()) (Except.ok ()) = PublishOutcome.created ∧
    publish_document (Except.error RemoteErr.authFailure)
      (fun _ => Except.ok ()) (Except.ok ()) ≠
      PublishOutcome.raised RemoteErr.authFailure :=
  ⟨rfl, by decide⟩

/-- C9 (amended): every failure of the existence check, authentication
failures included, is treated as "does not exist" and leads to the
create-file call; a successful existence check's sha leads to the update-file
call; only errors raised by the update or create calls themselves are
propagated to the caller, without translation and without retry. -/
theorem publish_document_routing (e e' : RemoteErr) (s : String)
    (updateFile : String → Except RemoteErr Unit) :
    publish_document (Except.error e) updateFile (Except.ok ()) =
      PublishOutcome.created ∧
    publish_document (Except.error e) updateFile (Except.error e') =
      PublishOutcome.raised e' ∧
    publish_document (Except.ok s) (fun _ => Except.error e') (Except.ok ()) =
      PublishOutcome.raised e' ∧
    publish_document (Except.ok s) (fun _ => Except.ok ()) (Except.error e') =
      PublishOutcome.updated s :=
  ⟨rfl, rfl, rfl, rfl⟩

/-- Sample RIG document with a pre-existing `target_info` mapping. -/
def sampleRig : List (String × Yaml) :=
  [("name", Yaml.str "Sample"),
   ("target_info", Yaml.map [("infores_id", Yaml.str "infores:sample")])]

/-- Result of merging `sampleMKG` into `sampleRig`. -/
def sampleMerged : List (String × Yaml) :=
  (mergeRig "not_provided" "not_provided" sampleMKG sampleRig).getD []

/-- Witness for C3 at the sample RIG and sample knowledge graph. -/
theorem mergeRig_target_info_frame_witness :
    (∀ k, k ≠ "target_info" → getKey sampleMerged k = getKey sampleRig k) ∧
    ∃ ti', getKey sampleMerged "target_info" = some (Yaml.map ti') ∧
      getKey ti' "node_type_info" =
        some (Yaml.seq ((node_type_info sampleMKG).map yamlOfNode)) ∧
      (∃ es, edge_type_info "not_provided" "not_provided" sampleMKG = some es ∧
        getKey ti' "edge_type_info" = some (Yaml.seq (es.map yamlOfEdge))) ∧
      ∀ k, k ≠ "node_type_info" → k ≠ "edge_type_info" →
        getKey ti' k =
          (match getKey sampleRig "target_info" with
           | some (Yaml.map ti) => getKey ti k
           | _ => none) :=
  mergeRig_target_info_frame "not_provided" "not_provided" sampleMKG sampleRig
    sampleMerged (by rfl)

/-- Witness for C4: a second merge on the merged sample document reproduces
it. -/
theorem mergeRig_idempotent_witness :
    mergeRig "not_provided" "not_provided" sampleMKG sampleMerged =
      some sampleMerged :=
  mergeRig_idempotent "not_provided" "not_provided" sampleMKG sampleRig
    sampleMerged (by rfl)

/-- Sample filesystem holding the sample RIG and sample knowledge graph. -/
def sampleFS : List (String × FileData) :=
  [("r.yaml", FileData.rigFile sampleRig),
   ("m.json", FileData.mkgFile sampleMKG)]

/-- Trace of the successful sample importer run. -/
def sampleTrace : List FsOp :=
  (runImporter "not_provided" "not_provided" "r.yaml" "m.json" sampleFS).2.1

/-- Filesystem after the successful sample importer run. -/
def sampleFinalFS : List (String × FileData) :=
  (runImporter "not_provided" "not_provided" "r.yaml" "m.json" sampleFS).2.2

/-- Witness for C5 at the sample filesystem. -/
theorem runImporter_backup_witness :
    sampleTrace = [FsOp.renameOp "r.yaml" ("r.yaml" ++ ".original"),
                   FsOp.writeOp "r.yaml"] ∧
    getKey sampleFinalFS ("r.yaml" ++ ".original") = getKey sampleFS "r.yaml" ∧
    ∃ rig mkg merged,
      getKey sampleFS "r.yaml" = some (FileData.rigFile rig) ∧
      getKey sampleFS "m.json" = some (FileData.mkgFile mkg) ∧
      mergeRig "not_provided" "not_provided" mkg rig = some merged ∧
      getKey sampleFinalFS "r.yaml" = some (FileData.rigFile merged) :=
  runImporter_backup "not_provided" "not_provided" "r.yaml" "m.json" sampleFS
    sampleFinalFS sampleTrace (by rfl)

/-- Witness for C6: the sample filesystem has no `missing.json`. -/
theorem runImporter_missing_input_witness :
    runImporter "not_provided" "not_provided" "r.yaml" "missing.json" sampleFS =
      (1, [], sampleFS) :=
  runImporter_missing_input "not_provided" "not_provided" "r.yaml"
    "missing.json" sampleFS (Or.inr (by rfl))

/-- Knowledge graph with an empty `nodes` mapping and one edge. -/
def emptyNodesMKG : MKG :=
  { nodes := [],
    edges := [{ subject := "biolink:Disease",
                predicate := "biolink:has_phenotype",
                object := "biolink:PhenotypicFeature" }] }

/-- Filesystem holding the sample RIG and the empty-nodes knowledge graph. -/
def emptyNodesFS : List (String × FileData) :=
  [("r.yaml", FileData.rigFile sampleRig),
   ("m.json", FileData.mkgFile emptyNodesMKG)]

/-- Witness for C10 at the empty-nodes knowledge graph. -/
theorem runImporter_empty_nodes_witness :
    edge_type_info "not_provided" "not_provided" emptyNodesMKG = none ∧
    runImporter "not_provided" "not_provided" "r.yaml" "m.json" emptyNodesFS =
      (1, [], emptyNodesFS) :=
  runImporter_empty_nodes "not_provided" "not_provided" "r.yaml" "m.json"
    emptyNodesFS sampleRig emptyNodesMKG (by rfl) (by rfl) (by rfl)
    (by simp [emptyNodesMKG])

/-- Template with a `ReferenceIngestGuide` mapping holding only a name and an
empty `source_info` mapping. -/
def sampleTemplate : List (String × Yaml) :=
  [("ReferenceIngestGuide", Yaml.map
    [("name", Yaml.str "RIG Template"),
     ("source_info", Yaml.map [])])]

/-- Witness for the amended C7 at a concrete template. -/
theorem create_rig_fills_template_witness :
    ∃ doc rigMap' si' ti',
      create_rig "infores:ctd" "CTD Chemical-Disease Associations" "2026-10-12"
        sampleTemplate = some doc ∧
      getKey doc "ReferenceIngestGuide" = some (Yaml.map rigMap') ∧
      getKey rigMap' "name" =
        some (Yaml.str "CTD Chemical-Disease Associations") ∧
      getKey rigMap' "source_info" = some (Yaml.map si') ∧
      getKey rigMap' "target_info" = some (Yaml.map ti') ∧
      getKey si' "infores_id" = some (Yaml.str "infores:ctd") ∧
      getKey ti' "infores_id" = some (Yaml.str "infores:ctd") ∧
      getKey si' "additional_notes" =
        (match getKey ([] : List (String × Yaml)) "additional_notes" with
         | some v => some v
         | none => some (Yaml.str ("RIG created on " ++ "2026-10-12"))) :=
  create_rig_fills_template "infores:ctd" "CTD Chemical-Disease Associations"
    "2026-10-12" sampleTemplate
    [("name", Yaml.str "RIG Template"), ("source_info", Yaml.map [])] []
    (by rfl) (by rfl) (fun v hv => Option.noConfusion hv)

end RigSchema
